import Mathlib

/-!
Shallow embedding of `src/yb/rpc/inbound_call.h` (YugabyteDB RPC inbound
call core).  The repository provides only the header: field layout,
signatures and doc comments.  Operation bodies (`inbound_call.cc`), the
wire frame format and the sidecar cap live outside `src/`, so they are
modelled from the specification; each such definition carries a doc
comment beginning `Modelled from the spec:`.
-/

namespace YbRpc

/-- Monotonic clock instant.  `MonoTime::Max()` is the distinguished
infinite value used to mean "client specified no deadline"
(header line 158), embedded as the extra constructor `max`. -/
inductive MonoTime where
  | fin : Nat → MonoTime
  | max : MonoTime
deriving DecidableEq

/-- Error kinds of the `Status` values this core produces, from the
spec's error taxonomy (§7): parse-time rejection, sidecar cap, and the
runtime guard for use-after-respond misuse (spec §9 models the consuming
respond operation as an "already responded" guard). -/
inductive ErrorKind where
  | ParseError
  | SidecarLimitExceeded
  | ContractViolation
deriving DecidableEq

/-- Result of a `CHECKED_STATUS` operation that also yields a value. -/
inductive StatusOr (α : Type) where
  | ok : α → StatusOr α
  | error : ErrorKind → StatusOr α
deriving DecidableEq

/-- Service + method identity, set by the parser (`remote_method_`,
header line 206). -/
structure RemoteMethod where
  service : Nat
  method : Nat
deriving DecidableEq

/-- A protobuf message is opaque to this core; only its serialized byte
string matters (the core never deserializes payloads). -/
structure MessageLite where
  bytes : List Nat
deriving DecidableEq

/-- Serialization of an opaque message: its byte string. -/
def serializeMessage (m : MessageLite) : List Nat := m.bytes

/-- Error envelope (`ErrorStatusPB`), from spec §6: `{error_code,
message}` for transport-level failures, `{error_ext_id, message,
opaque_payload}` for application-level failures. -/
structure ErrorStatusPB where
  error_code : Option Nat
  message : String
  error_ext_id : Option Int
  app_payload : List Nat
deriving DecidableEq

/-- Modelled from the spec: a concrete byte encoding of the error
envelope (the real protobuf wire format of `rpc_header.pb.h` is not
under `src/`); fields appear in order, optional fields tagged. -/
def serializeError (e : ErrorStatusPB) : List Nat :=
  (match e.error_code with
   | none => [0]
   | some c => [1, c]) ++
  (e.message.toList.map Char.toNat) ++
  (match e.error_ext_id with
   | none => [0]
   | some i => [1, i.toNat]) ++
  e.app_payload

/-- Byte-range view into a buffer owned elsewhere (`Slice`): an offset
and a length, zero copy. -/
structure Slice where
  off : Nat
  len : Nat
deriving DecidableEq

/-- The bytes a slice denotes inside its backing buffer. -/
def sliceView (buf : List Nat) (s : Slice) : List Nat :=
  (buf.drop s.off).take s.len

/-- Timing information of one call (header lines 60-64): each field is
unset until its recording operation runs. -/
structure InboundCallTiming where
  time_received : Option Nat
  time_handled : Option Nat
  time_completed : Option Nat
deriving DecidableEq

/-- The call object state (header lines 184-206).  `responded` is the
runtime guard the spec (§9) prescribes for the consuming respond
operation: the C++ object is deleted by `Respond`; here the consumed
state is marked and every operation checks it.  `response_buf_` is the
internal buffer `SerializeResponseBuffer` fills.  `client_deadline` is
the value the concrete variant's `GetClientDeadline` reports. -/
structure InboundCall where
  serialized_request_ : Slice
  transfer_ : List Nat
  sidecars_ : List (List Nat)
  timing_ : InboundCallTiming
  remote_method_ : RemoteMethod
  response_buf_ : List Nat
  client_deadline : MonoTime
  responded : Bool
deriving DecidableEq

/-- `GetClientDeadline` (header line 159): deadline from the parsed
header, `MonoTime.max` when the client specified none. -/
def GetClientDeadline (c : InboundCall) : MonoTime := c.client_deadline

/-- Modelled from the spec: `ClientTimedOut` (`inbound_call.cc` is not
under `src/`).  True iff the client deadline has already elapsed; false
when no deadline was set; the boundary `now = deadline` counts as timed
out (spec §8). -/
def ClientTimedOut (c : InboundCall) (now : Nat) : Bool :=
  match GetClientDeadline c with
  | MonoTime.max => false
  | MonoTime.fin d => decide (d ≤ now)

/-- Modelled from the spec: the only codec id this model accepts; the
spec names "unknown codec" as a parse failure but the codec table is
outside `src/`. -/
def knownCodec : Nat := 0

/-- Modelled from the spec: the minimal wire frame (the concrete wire
header schema is explicitly out of scope in spec §1, and the transfer
code is not under `src/`).  A transfer's bytes are
`codec :: hlen :: header ++ payload` where `header` has `hlen ≥ 2`
bytes: service id, method id, then an optional deadline byte.  The
payload is everything after the header. -/
def payloadOf (data : List Nat) : List Nat :=
  match data with
  | _ :: hlen :: rest => rest.drop hlen
  | _ => []

/-- Modelled from the spec: a transfer is well formed when the codec is
known, the declared header length is at least the two mandatory identity
bytes, and the header is not truncated. -/
def wellFormed (data : List Nat) : Bool :=
  match data with
  | codec :: hlen :: rest =>
      decide (codec = knownCodec) && decide (2 ≤ hlen) && decide (hlen ≤ rest.length)
  | _ => false

/-- Modelled from the spec: `ParseFrom` (pure virtual in the header,
lines 72-78; variants' bodies are not under `src/`).  Deserializes only
the header: sets `remote_method_`, the client deadline, and
`serialized_request_` as a borrowed range over the transfer's bytes,
retaining the transfer inside the call object; the payload itself is
never touched.  Malformed frame, unknown codec or truncated header
yield a `ParseError` and no call object. -/
def ParseFrom (data : List Nat) : StatusOr InboundCall :=
  match data with
  | codec :: hlen :: rest =>
      if codec ≠ knownCodec then StatusOr.error ErrorKind.ParseError
      else if hlen < 2 then StatusOr.error ErrorKind.ParseError
      else if rest.length < hlen then StatusOr.error ErrorKind.ParseError
      else
        let header := rest.take hlen
        StatusOr.ok
          { serialized_request_ := { off := 2 + hlen, len := data.length - (2 + hlen) }
            transfer_ := data
            sidecars_ := []
            timing_ := { time_received := none, time_handled := none, time_completed := none }
            remote_method_ := { service := header.headD 0, method := (header.drop 1).headD 0 }
            response_buf_ := []
            client_deadline :=
              if hlen = 2 then MonoTime.max else MonoTime.fin ((header.drop 2).headD 0)
            responded := false }
  | _ => StatusOr.error ErrorKind.ParseError

/-- `serialized_request()` (header lines 81-83) guarded by the consumed
flag: reading a deleted call object is invalid, so the consumed state
yields nothing. -/
def serialized_request (c : InboundCall) : Option (List Nat) :=
  if c.responded then none
  else some (sliceView c.transfer_ c.serialized_request_)

/-- Modelled from the spec: the sidecar registry's implementation
defined maximum (the constant lives outside `src/`). -/
def maxSidecars : Nat := 10

/-- Modelled from the spec: `AddRpcSidecar` (header lines 119-120, body
not under `src/`).  Takes ownership of the buffer, appends it and
returns its 0-based index; fails with `SidecarLimitExceeded` at the cap,
registering nothing. -/
def AddRpcSidecar (c : InboundCall) (car : List Nat) : StatusOr (InboundCall × Nat) :=
  if c.responded then StatusOr.error ErrorKind.ContractViolation
  else if maxSidecars ≤ c.sidecars_.length then StatusOr.error ErrorKind.SidecarLimitExceeded
  else StatusOr.ok ({ c with sidecars_ := c.sidecars_ ++ [car] }, c.sidecars_.length)

/-- Modelled from the spec: `SerializeResponseTo` (header lines 109-111,
variants' bodies not under `src/`).  The final ordered sequence of
byte-range views: primary serialized payload first, then the sidecar
byte buffers in registration order, no copying. -/
def SerializeResponseTo (c : InboundCall) : List (List Nat) :=
  c.response_buf_ :: c.sidecars_

/-- Modelled from the spec: `SerializeResponseBuffer` stores the
serialized response into the call's internal buffer. -/
def SerializeResponseBuffer (c : InboundCall) (resp : List Nat) : InboundCall :=
  { c with response_buf_ := resp }

/-- Modelled from the spec: the internal `Respond(payload, is_success)`
step all three respond operations funnel into (header lines 162-163,
body not under `src/`): serialize into the internal buffer, produce the
slice sequence, queue it to the connection, and consume the call
object.  A respond on an already consumed object is a contract
violation and never succeeds.  The returned pair is the consumed state
(as the delivery path sees it) and the queued byte-range sequence. -/
def Respond (c : InboundCall) (resp : List Nat) ( is_success : Bool) :
    StatusOr (InboundCall × List (List Nat)) :=
  if c.responded then StatusOr.error ErrorKind.ContractViolation
  else
    let c1 := { SerializeResponseBuffer c resp with responded := true }
    StatusOr.ok (c1, SerializeResponseTo c1)

/-- Modelled from the spec: `RespondSuccess` (header lines 89-95)
serializes the response as the success body and queues it. -/
def RespondSuccess (c : InboundCall) (response : MessageLite) :
    StatusOr (InboundCall × List (List Nat)) :=
  Respond c (serializeMessage response) true

/-- Modelled from the spec: `RespondFailure` (header lines 103-104)
serializes an error envelope carrying the code and the status message. -/
def RespondFailure (c : InboundCall) (error_code : Nat) (status_message : String) :
    StatusOr (InboundCall × List (List Nat)) :=
  Respond c (serializeError
    { error_code := some error_code
      message := status_message
      error_ext_id := none
      app_payload := [] }) false

/-- Modelled from the spec: `ApplicationErrorToPB` (header lines
115-117, body not under `src/`).  Pure transform of its inputs into the
generic error envelope: extension id, human message, serialized opaque
payload. -/
def ApplicationErrorToPB (error_ext_id : Int) (message : String)
    (app_error_pb : MessageLite) : ErrorStatusPB :=
  { error_code := none
    message := message
    error_ext_id := some error_ext_id
    app_payload := serializeMessage app_error_pb }

/-- Modelled from the spec: `RespondApplicationError` (header lines
106-107) wraps the service error in the envelope built by
`ApplicationErrorToPB` and sends exactly that envelope. -/
def RespondApplicationError (c : InboundCall) (error_ext_id : Int) (message : String)
    (app_error_pb : MessageLite) : StatusOr (InboundCall × List (List Nat)) :=
  Respond c (serializeError (ApplicationErrorToPB error_ext_id message app_error_pb)) false

/-- Modelled from the spec: `RecordCallReceived` (header lines 134-137,
body not under `src/`).  Stamps `time_received`; callable once, first of
the three; misuse is a contract violation (`none`). -/
def RecordCallReceived (c : InboundCall) (now : Nat) : Option InboundCall :=
  if c.responded then none
  else match c.timing_.time_received with
    | some _ => none
    | none => some { c with timing_ := { c.timing_ with time_received := some now } }

/-- Modelled from the spec: `RecordHandlingStarted` (header lines
139-143).  Stamps `time_handled`, requires `time_received` already set
and `time_handled` unset, and reports the elapsed queue time to the
histogram (returned as the second component). -/
def RecordHandlingStarted (c : InboundCall) (now : Nat) : Option (InboundCall × Nat) :=
  if c.responded then none
  else match c.timing_.time_received, c.timing_.time_handled with
    | some r, none =>
        some ({ c with timing_ := { c.timing_ with time_handled := some now } }, now - r)
    | _, _ => none

/-- Modelled from the spec: `RecordHandlingCompleted` (header lines
145-149).  Stamps `time_completed`, requires `time_handled` already set
and `time_completed` unset, and reports the handler run time. -/
def RecordHandlingCompleted (c : InboundCall) (now : Nat) : Option (InboundCall × Nat) :=
  if c.responded then none
  else match c.timing_.time_handled, c.timing_.time_completed with
    | some h, none =>
        some ({ c with timing_ := { c.timing_ with time_completed := some now } }, now - h)
    | _, _ => none

/-- Iterated sidecar registration, used to state the dense-index
property: registers the buffers in order, collecting the returned
indices. -/
def addAll (c : InboundCall) (buffers : List (List Nat)) :
    StatusOr (InboundCall × List Nat) :=
  match buffers with
  | [] => StatusOr.ok (c, [])
  | b :: bs =>
      match AddRpcSidecar c b with
      | StatusOr.error e => StatusOr.error e
      | StatusOr.ok (c1, i) =>
          match addAll c1 bs with
          | StatusOr.error e => StatusOr.error e
          | StatusOr.ok (c2, is) => StatusOr.ok (c2, i :: is)

/-- Splitting a byte string at declared boundary lengths: consumes
`lens` in order, taking each segment off the front. -/
def splitAtLens (lens : List Nat) (bytes : List Nat) : List (List Nat) :=
  match lens with
  | [] => []
  | l :: ls => bytes.take l :: splitAtLens ls (bytes.drop l)

/-- A concrete freshly parsed call, used by the witness statements. -/
def testCall : InboundCall :=
  { serialized_request_ := { off := 4, len := 2 }
    transfer_ := [0, 2, 5, 7, 9, 9]
    sidecars_ := []
    timing_ := { time_received := none, time_handled := none, time_completed := none }
    remote_method_ := { service := 5, method := 7 }
    response_buf_ := []
    client_deadline := MonoTime.fin 100
    responded := false }

/-- Splitting a concatenation at the segment lengths recovers the
segments. -/
theorem splitAtLens_flatten (l : List (List Nat)) :
    splitAtLens (l.map List.length) l.flatten = l := by
  induction l with
  | nil => rfl
  | cons a as ih =>
      simp only [List.map_cons, List.flatten_cons, splitAtLens,
        List.take_left, List.drop_left, ih]

/-- Registering a list of buffers in order: indices come out as the
dense range starting at the current count, and the buffers are appended
in order. -/
theorem addAll_ok (buffers : List (List Nat)) : ∀ c : InboundCall,
    c.responded = false →
    buffers.length + c.sidecars_.length ≤ maxSidecars →
    ∃ c1, addAll c buffers =
        StatusOr.ok (c1, List.range' c.sidecars_.length buffers.length) ∧
      c1.sidecars_ = c.sidecars_ ++ buffers ∧ c1.responded = false := by
  induction buffers with
  | nil => exact fun c hr _ => ⟨c, rfl, by simp, hr⟩
  | cons b bs ih =>
      intro c hr hle
      have hlt : ¬ maxSidecars ≤ c.sidecars_.length := by
        simp only [List.length_cons] at hle; omega
      obtain ⟨c1, h1, h2, h3⟩ :=
        ih { c with sidecars_ := c.sidecars_ ++ [b], responded := false }
          rfl (by simp only [List.length_cons] at hle; simp; omega)
      have hproj : ({ c with sidecars_ := c.sidecars_ ++ [b], responded := false } :
          InboundCall).sidecars_ = c.sidecars_ ++ [b] := rfl
      rw [hproj] at h2
      simp only [hproj, List.length_append, List.length_cons, List.length_nil,
        Nat.zero_add] at h1
      refine ⟨c1, ?_, by simpa using h2, h3⟩
      have hadd : AddRpcSidecar c b = StatusOr.ok
          ({ c with sidecars_ := c.sidecars_ ++ [b], responded := false },
            c.sidecars_.length) := by
        simp [AddRpcSidecar, hr, hlt]
      simp [addAll, hadd, h1, List.range'_succ]

/-- C2: for every well-formed transfer, `ParseFrom` succeeds and the
resulting call retains the transfer and views exactly its payload byte
range; for every malformed transfer it fails with `ParseError` and no
call object is produced. -/
theorem parse_from_correct (data : List Nat) :
    (wellFormed data = true →
      ∃ c, ParseFrom data = StatusOr.ok c ∧
        c.transfer_ = data ∧
        serialized_request c = some (payloadOf data) ∧
        c.responded = false) ∧
    (wellFormed data = false →
      ParseFrom data = StatusOr.error ErrorKind.ParseError) := by
  rcases data with _ | ⟨codec, _ | ⟨hlen, rest⟩⟩
  · exact ⟨fun hw => by simp [wellFormed] at hw, fun _ => rfl⟩
  · exact ⟨fun hw => by simp [wellFormed] at hw, fun _ => rfl⟩
  constructor
  · intro hw
    simp only [wellFormed, knownCodec, Bool.and_eq_true, decide_eq_true_eq] at hw
    obtain ⟨⟨h1, h2⟩, h3⟩ := hw
    subst h1
    have hp : ParseFrom (0 :: hlen :: rest) = StatusOr.ok
        { serialized_request_ :=
            { off := 2 + hlen, len := (0 :: hlen :: rest).length - (2 + hlen) }
          transfer_ := 0 :: hlen :: rest
          sidecars_ := []
          timing_ := { time_received := none, time_handled := none, time_completed := none }
          remote_method_ := { service := (rest.take hlen).headD 0,
                              method := ((rest.take hlen).drop 1).headD 0 }
          response_buf_ := []
          client_deadline := if hlen = 2 then MonoTime.max
            else MonoTime.fin (((rest.take hlen).drop 2).headD 0)
          responded := false } := by
      simp [ParseFrom, knownCodec, Nat.not_lt.mpr h2, Nat.not_lt.mpr h3]
    refine ⟨_, hp, rfl, ?_, rfl⟩
    simp only [serialized_request, sliceView, payloadOf, if_neg (by simp :
      ¬ (false = true)), Option.some.injEq]
    have hdrop : (0 :: hlen :: rest).drop (2 + hlen) = rest.drop hlen := by
      rw [Nat.add_comm]
      simp [List.drop_succ_cons]
    rw [hdrop]
    apply List.take_of_length_le
    simp only [List.length_drop, List.length_cons]
    omega
  · intro hw
    by_cases h1 : codec = knownCodec
    · subst h1
      by_cases h2 : hlen < 2
      · simp [ParseFrom, h2]
      · by_cases h3 : rest.length < hlen
        · simp [ParseFrom, h2, h3]
        · exfalso
          have hwf : wellFormed (knownCodec :: hlen :: rest) = true := by
            simp only [wellFormed, Bool.and_eq_true, decide_eq_true_eq]
            exact ⟨⟨trivial, by omega⟩, by omega⟩
          rw [hwf] at hw
          simp at hw
    · simp [ParseFrom, h1]

/-- C3: `ClientTimedOut` is false when the client specified no deadline
(`GetClientDeadline` reporting `MonoTime.max`), false while `now` is
strictly before the deadline, and true from the deadline on — equality
resolves to timed out. -/
theorem client_timed_out_correct (c : InboundCall) (now : Nat) :
    (GetClientDeadline c = MonoTime.max → ClientTimedOut c now = false) ∧
    (∀ d, GetClientDeadline c = MonoTime.fin d →
      (now < d → ClientTimedOut c now = false) ∧
      (d ≤ now → ClientTimedOut c now = true)) := by
  constructor
  · intro h
    simp [ClientTimedOut, h]
  · intro d h
    constructor
    · intro hlt
      simp [ClientTimedOut, h, Nat.not_le.mpr hlt]
    · intro hle
      simp [ClientTimedOut, h, hle]

/-- C4: a queued success response is the slice sequence
`SerializeResponseTo` describes — serialized payload first, then the
sidecars in registration order — and splitting the concatenated bytes
at the declared segment boundaries reconstructs the payload and every
sidecar exactly. -/
theorem serialize_response_round_trip (c c1 : InboundCall) (m : MessageLite)
    (out : List (List Nat))
    (h : RespondSuccess c m = StatusOr.ok (c1, out)) :
    out = SerializeResponseTo c1 ∧
    out = serializeMessage m :: c.sidecars_ ∧
    splitAtLens (out.map List.length) out.flatten = out := by
  by_cases hr : c.responded
  · simp [RespondSuccess, Respond, hr] at h
  · simp only [RespondSuccess, Respond, hr, Bool.false_eq_true, if_false,
      StatusOr.ok.injEq, Prod.mk.injEq] at h
    obtain ⟨hc, hout⟩ := h
    subst hc hout
    refine ⟨rfl, ?_, splitAtLens_flatten _⟩
    simp [SerializeResponseTo, SerializeResponseBuffer]

/-- C5: a successful `AddRpcSidecar` returns the pre-registration count
as the new index and appends the buffer; `n` registrations from an
empty registry yield exactly the indices `0..n-1` with the buffers
stored in order; and no modelled operation removes a sidecar — the
recording operations and `Respond` leave the registry untouched. -/
theorem add_rpc_sidecar_dense_indices :
    (∀ c car c1 i, AddRpcSidecar c car = StatusOr.ok (c1, i) →
      i = c.sidecars_.length ∧ c1.sidecars_ = c.sidecars_ ++ [car]) ∧
    (∀ c buffers, c.responded = false → c.sidecars_ = [] →
      buffers.length ≤ maxSidecars →
      ∃ c1, addAll c buffers = StatusOr.ok (c1, List.range buffers.length) ∧
        c1.sidecars_ = buffers) ∧
    (∀ c now c1, RecordCallReceived c now = some c1 →
      c1.sidecars_ = c.sidecars_) ∧
    (∀ c now c1 d, RecordHandlingStarted c now = some (c1, d) →
      c1.sidecars_ = c.sidecars_) ∧
    (∀ c now c1 d, RecordHandlingCompleted c now = some (c1, d) →
      c1.sidecars_ = c.sidecars_) ∧
    (∀ c resp s c1 out, Respond c resp s = StatusOr.ok (c1, out) →
      c1.sidecars_ = c.sidecars_) := by
  refine ⟨?_, ?_, ?_, ?_, ?_, ?_⟩
  · intro c car c1 i h
    by_cases hr : c.responded
    · simp [AddRpcSidecar, hr] at h
    · by_cases hl : maxSidecars ≤ c.sidecars_.length
      · simp [AddRpcSidecar, hr, hl] at h
      · simp only [AddRpcSidecar, hr, Bool.false_eq_true, if_false, hl,
          StatusOr.ok.injEq, Prod.mk.injEq] at h
        obtain ⟨hc, hi⟩ := h
        subst hc
        exact ⟨hi.symm, by simp⟩
  · intro c buffers hr hs hle
    obtain ⟨c1, h1, h2, _⟩ := addAll_ok buffers c hr (by rw [hs]; simpa using hle)
    rw [hs] at h2
    refine ⟨c1, ?_, by simpa using h2⟩
    rw [h1, hs]
    simp [List.range_eq_range']
  · intro c now c1 h
    by_cases hr : c.responded
    · simp [RecordCallReceived, hr] at h
    · simp only [RecordCallReceived, hr, Bool.false_eq_true, if_false] at h
      cases htr : c.timing_.time_received with
      | some t => rw [htr] at h; simp at h
      | none =>
          rw [htr] at h
          simp only [Option.some.injEq] at h
          subst h
          rfl
  · intro c now c1 d h
    by_cases hr : c.responded
    · simp [RecordHandlingStarted, hr] at h
    · simp only [RecordHandlingStarted, hr, Bool.false_eq_true, if_false] at h
      cases htr : c.timing_.time_received with
      | none => rw [htr] at h; simp at h
      | some t =>
          cases hth : c.timing_.time_handled with
          | some u => rw [htr, hth] at h; simp at h
          | none =>
              rw [htr, hth] at h
              simp only [Option.some.injEq, Prod.mk.injEq] at h
              obtain ⟨hc, _⟩ := h
              subst hc
              rfl
  · intro c now c1 d h
    by_cases hr : c.responded
    · simp [RecordHandlingCompleted, hr] at h
    · simp only [RecordHandlingCompleted, hr, Bool.false_eq_true, if_false] at h
      cases hth : c.timing_.time_handled with
      | none => rw [hth] at h; simp at h
      | some t =>
          cases htc : c.timing_.time_completed with
          | some u => rw [hth, htc] at h; simp at h
          | none =>
              rw [hth, htc] at h
              simp only [Option.some.injEq, Prod.mk.injEq] at h
              obtain ⟨hc, _⟩ := h
              subst hc
              rfl
  · intro c resp s c1 out h
    by_cases hr : c.responded
    · simp [Respond, hr] at h
    · simp only [Respond, hr, Bool.false_eq_true, if_false,
        StatusOr.ok.injEq, Prod.mk.injEq] at h
      obtain ⟨hc, _⟩ := h
      subst hc
      rfl

/-- C6: on an unconsumed call, `AddRpcSidecar` fails with
`SidecarLimitExceeded` exactly when the registry already holds the
maximum number of sidecars — the error carries no updated state, so
nothing is registered — and below the cap it succeeds. -/
theorem add_rpc_sidecar_limit (c : InboundCall) (car : List Nat)
    (hr : c.responded = false) :
    (maxSidecars ≤ c.sidecars_.length →
      AddRpcSidecar c car = StatusOr.error ErrorKind.SidecarLimitExceeded) ∧
    (c.sidecars_.length < maxSidecars →
      AddRpcSidecar c car =
        StatusOr.ok ({ c with sidecars_ := c.sidecars_ ++ [car] },
          c.sidecars_.length)) := by
  constructor
  · intro hl
    simp [AddRpcSidecar, hr, hl]
  · intro hl
    simp [AddRpcSidecar, hr, Nat.not_le.mpr hl]

/-- C1: the respond family is terminal and at-most-once.  A respond
step succeeds only on an unconsumed call and yields the consumed state;
on a consumed call every respond-family operation is a contract
violation and never succeeds, and no other modelled operation — sidecar
registration, timing recording, or reading the request view — is valid
either. -/
theorem respond_terminal_at_most_once :
    (∀ c resp s, c.responded = true →
      Respond c resp s = StatusOr.error ErrorKind.ContractViolation) ∧
    (∀ c m, c.responded = true →
      RespondSuccess c m = StatusOr.error ErrorKind.ContractViolation) ∧
    (∀ c code msg, c.responded = true →
      RespondFailure c code msg = StatusOr.error ErrorKind.ContractViolation) ∧
    (∀ c eid msg p, c.responded = true →
      RespondApplicationError c eid msg p =
        StatusOr.error ErrorKind.ContractViolation) ∧
    (∀ c car, c.responded = true →
      AddRpcSidecar c car = StatusOr.error ErrorKind.ContractViolation) ∧
    (∀ c now, c.responded = true → RecordCallReceived c now = none) ∧
    (∀ c now, c.responded = true → RecordHandlingStarted c now = none) ∧
    (∀ c now, c.responded = true → RecordHandlingCompleted c now = none) ∧
    (∀ c, c.responded = true → serialized_request c = none) ∧
    (∀ c resp s c1 out, Respond c resp s = StatusOr.ok (c1, out) →
      c.responded = false ∧ c1.responded = true) := by
  refine ⟨?_, ?_, ?_, ?_, ?_, ?_, ?_, ?_, ?_, ?_⟩
  · intro c resp s h
    simp [Respond, h]
  · intro c m h
    simp [RespondSuccess, Respond, h]
  · intro c code msg h
    simp [RespondFailure, Respond, h]
  · intro c eid msg p h
    simp [RespondApplicationError, Respond, h]
  · intro c car h
    simp [AddRpcSidecar, h]
  · intro c now h
    simp [RecordCallReceived, h]
  · intro c now h
    simp [RecordHandlingStarted, h]
  · intro c now h
    simp [RecordHandlingCompleted, h]
  · intro c h
    simp [serialized_request, h]
  · intro c resp s c1 out h
    by_cases hr : c.responded
    · simp [Respond, hr] at h
    · simp only [Respond, hr, Bool.false_eq_true, if_false, StatusOr.ok.injEq,
        Prod.mk.injEq] at h
      obtain ⟨hc, _⟩ := h
      subst hc
      exact ⟨by simpa using hr, rfl⟩

/-- C7: the client timeout is advisory.  On an unconsumed call whose
deadline has elapsed, `RespondSuccess` still serializes and queues the
response exactly as it would on the same call with no deadline: same
success, same queued slice sequence. -/
theorem timed_out_respond_still_queued (c : InboundCall) (now : Nat) (m : MessageLite)
    (hr : c.responded = false) (ht : ClientTimedOut c now = true) :
    ∃ c1, RespondSuccess c m = StatusOr.ok (c1, SerializeResponseTo c1) ∧
      SerializeResponseTo c1 = serializeMessage m :: c.sidecars_ ∧
      c1.responded = true ∧
      (∃ c2, RespondSuccess { c with client_deadline := MonoTime.max } m =
          StatusOr.ok (c2, SerializeResponseTo c2) ∧
          SerializeResponseTo c2 = SerializeResponseTo c1) := by
  have h1 : RespondSuccess c m = StatusOr.ok
      ({ SerializeResponseBuffer c (serializeMessage m) with responded := true },
        SerializeResponseTo
          { SerializeResponseBuffer c (serializeMessage m) with responded := true }) := by
    simp [RespondSuccess, Respond, hr]
  have h2 : RespondSuccess { c with client_deadline := MonoTime.max } m = StatusOr.ok
      ({ SerializeResponseBuffer { c with client_deadline := MonoTime.max }
          (serializeMessage m) with responded := true },
        SerializeResponseTo
          { SerializeResponseBuffer { c with client_deadline := MonoTime.max }
              (serializeMessage m) with responded := true }) := by
    simp [RespondSuccess, Respond, hr]
  exact ⟨_, h1, rfl, rfl, _, h2, rfl⟩

/-- C8: timing transitions are monotone and once-only.  From a fresh
call, recording received, handling-started and handling-completed at
nondecreasing clock instants succeeds in that order; the recorded
values are exactly those instants, so completed ≥ handled ≥ received;
re-recording an already set field fails, and each recording operation
demands that the prior field is already set. -/
theorem timing_monotonic_once (c : InboundCall) (t1 t2 t3 : Nat)
    (hr : c.responded = false)
    (h0 : c.timing_ = { time_received := none, time_handled := none,
                        time_completed := none })
    (h12 : t1 ≤ t2) (h23 : t2 ≤ t3) :
    ∃ c1 c2 c3 dq dr,
      RecordCallReceived c t1 = some c1 ∧
      RecordHandlingStarted c1 t2 = some (c2, dq) ∧
      RecordHandlingCompleted c2 t3 = some (c3, dr) ∧
      c3.timing_.time_received = some t1 ∧
      c3.timing_.time_handled = some t2 ∧
      c3.timing_.time_completed = some t3 ∧
      (∀ a b, c3.timing_.time_received = some a →
        c3.timing_.time_handled = some b → a ≤ b) ∧
      (∀ a b, c3.timing_.time_handled = some a →
        c3.timing_.time_completed = some b → a ≤ b) ∧
      RecordCallReceived c1 t2 = none ∧
      RecordCallReceived c2 t3 = none ∧
      RecordCallReceived c3 t3 = none ∧
      RecordHandlingStarted c t1 = none ∧
      RecordHandlingStarted c2 t3 = none ∧
      RecordHandlingStarted c3 t3 = none ∧
      RecordHandlingCompleted c t1 = none ∧
      RecordHandlingCompleted c1 t2 = none ∧
      RecordHandlingCompleted c3 t3 = none := by
  obtain ⟨sr, tr, sc, tm, rm, rb, cd, rs⟩ := c
  replace hr : rs = false := hr
  replace h0 : tm = ⟨none, none, none⟩ := h0
  subst hr
  subst h0
  refine ⟨_, _, _, _, _, rfl, rfl, rfl, rfl, rfl, rfl, ?_, ?_,
    rfl, rfl, rfl, rfl, rfl, rfl, rfl, rfl, rfl⟩
  · intro a b ha hb
    simp only [Option.some.injEq] at ha hb
    omega
  · intro a b ha hb
    simp only [Option.some.injEq] at ha hb
    omega

/-- C9: `ApplicationErrorToPB` is a pure transform whose envelope
carries exactly the given extension id, message and the serialized
application payload; `RespondApplicationError` queues exactly that
envelope's bytes as the primary payload.  In particular the scenario
with id 42, message "bad input" and payload bytes `[3, 1, 4]`. -/
theorem application_error_envelope :
    (∀ eid msg p,
      (ApplicationErrorToPB eid msg p).error_ext_id = some eid ∧
      (ApplicationErrorToPB eid msg p).message = msg ∧
      (ApplicationErrorToPB eid msg p).app_payload = serializeMessage p) ∧
    (∀ c eid msg p, c.responded = false →
      ∃ c1, RespondApplicationError c eid msg p = StatusOr.ok (c1,
          serializeError (ApplicationErrorToPB eid msg p) :: c.sidecars_) ∧
        c1.response_buf_ = serializeError (ApplicationErrorToPB eid msg p)) ∧
    ((ApplicationErrorToPB 42 "bad input" { bytes := [3, 1, 4] }).error_ext_id =
        some 42 ∧
      (ApplicationErrorToPB 42 "bad input" { bytes := [3, 1, 4] }).message =
        "bad input" ∧
      (ApplicationErrorToPB 42 "bad input" { bytes := [3, 1, 4] }).app_payload =
        [3, 1, 4]) := by
  refine ⟨fun eid msg p => ⟨rfl, rfl, rfl⟩, ?_, rfl, rfl, rfl⟩
  intro c eid msg p hr
  have h1 : RespondApplicationError c eid msg p = StatusOr.ok
      ({ SerializeResponseBuffer c (serializeError (ApplicationErrorToPB eid msg p))
          with responded := true },
        serializeError (ApplicationErrorToPB eid msg p) :: c.sidecars_) := by
    simp [RespondApplicationError, Respond, hr, SerializeResponseTo,
      SerializeResponseBuffer]
  exact ⟨_, h1, rfl⟩

/-- Witness for C1 at concrete inputs: a consumed call rejects every
respond-family and bookkeeping operation, and a fresh respond consumes
the object. -/
theorem respond_terminal_at_most_once_witness :
    RespondSuccess { testCall with responded := true } { bytes := [1] } =
      StatusOr.error ErrorKind.ContractViolation ∧
    RespondFailure { testCall with responded := true } 2 "boom" =
      StatusOr.error ErrorKind.ContractViolation ∧
    RespondApplicationError { testCall with responded := true } 7 "x" { bytes := [] } =
      StatusOr.error ErrorKind.ContractViolation ∧
    serialized_request { testCall with responded := true } = none ∧
    (testCall.responded = false ∧
      ({ SerializeResponseBuffer testCall [1] with responded := true } :
        InboundCall).responded = true) := by
  refine ⟨respond_terminal_at_most_once.2.1 _ _ rfl,
    respond_terminal_at_most_once.2.2.1 _ _ _ rfl,
    respond_terminal_at_most_once.2.2.2.1 _ _ _ _ rfl,
    respond_terminal_at_most_once.2.2.2.2.2.2.2.2.1 _ rfl, ?_⟩
  exact respond_terminal_at_most_once.2.2.2.2.2.2.2.2.2 testCall [1] true _ _ rfl

/-- Witness for C2: a concrete well-formed transfer parses to a call
viewing exactly its payload bytes, and a concrete unknown-codec
transfer is rejected with `ParseError`. -/
theorem parse_from_correct_witness :
    (∃ c, ParseFrom [0, 2, 5, 7, 9, 9] = StatusOr.ok c ∧
      c.transfer_ = [0, 2, 5, 7, 9, 9] ∧
      serialized_request c = some (payloadOf [0, 2, 5, 7, 9, 9]) ∧
      c.responded = false) ∧
    ParseFrom [1, 2, 5, 7] = StatusOr.error ErrorKind.ParseError :=
  ⟨(parse_from_correct [0, 2, 5, 7, 9, 9]).1 (by decide),
   (parse_from_correct [1, 2, 5, 7]).2 (by decide)⟩

/-- Witness for C3 at a 100-tick deadline: timed out at 150 and at
exactly 100, not at 99, and never without a deadline. -/
theorem client_timed_out_correct_witness :
    ClientTimedOut testCall 150 = true ∧
    ClientTimedOut testCall 100 = true ∧
    ClientTimedOut testCall 99 = false ∧
    ClientTimedOut { testCall with client_deadline := MonoTime.max } 1000000 = false :=
  ⟨((client_timed_out_correct testCall 150).2 100 rfl).2 (by decide),
   ((client_timed_out_correct testCall 100).2 100 rfl).2 (by decide),
   ((client_timed_out_correct testCall 99).2 100 rfl).1 (by decide),
   (client_timed_out_correct { testCall with client_deadline := MonoTime.max }
     1000000).1 rfl⟩

/-- Witness for C4: a concrete success response with two sidecars
splits back into payload and sidecars at the declared boundaries. -/
theorem serialize_response_round_trip_witness :
    splitAtLens ([[1, 2, 3], [7, 8], [9]].map List.length)
        [[1, 2, 3], [7, 8], [9]].flatten = [[1, 2, 3], [7, 8], [9]] ∧
    [[1, 2, 3], [7, 8], [9]] = serializeMessage { bytes := [1, 2, 3] } ::
      ({ testCall with sidecars_ := [[7, 8], [9]] } : InboundCall).sidecars_ := by
  have h := serialize_response_round_trip
    { testCall with sidecars_ := [[7, 8], [9]] }
    { SerializeResponseBuffer { testCall with sidecars_ := [[7, 8], [9]] } [1, 2, 3]
        with responded := true }
    { bytes := [1, 2, 3] } [[1, 2, 3], [7, 8], [9]] (by rfl)
  exact ⟨h.2.2, h.2.1⟩

/-- Witness for C5: three registrations from an empty registry return
indices 0, 1, 2 and store the three buffers in order. -/
theorem add_rpc_sidecar_dense_indices_witness :
    ∃ c1, addAll testCall [[1], [2, 2], [3]] = StatusOr.ok (c1, List.range 3) ∧
      c1.sidecars_ = [[1], [2, 2], [3]] := by
  have h := add_rpc_sidecar_dense_indices.2.1 testCall [[1], [2, 2], [3]]
    rfl rfl (by decide)
  exact h

/-- Witness for C6: at ten registered sidecars the cap rejects the next
buffer; below it the registration succeeds with the next index. -/
theorem add_rpc_sidecar_limit_witness :
    AddRpcSidecar { testCall with sidecars_ := List.replicate 10 [0] } [5] =
      StatusOr.error ErrorKind.SidecarLimitExceeded ∧
    AddRpcSidecar testCall [5] =
      StatusOr.ok ({ testCall with sidecars_ := [[5]] }, 0) := by
  constructor
  · exact (add_rpc_sidecar_limit { testCall with sidecars_ := List.replicate 10 [0] }
      [5] rfl).1 (by decide)
  · exact (add_rpc_sidecar_limit testCall [5] rfl).2 (by decide)

/-- Witness for C7: at 150 ticks against a 100-tick deadline the call
has timed out, yet `RespondSuccess` still queues the response, equal to
the no-deadline run. -/
theorem timed_out_respond_still_queued_witness :
    ∃ c1, RespondSuccess testCall { bytes := [4, 2] } =
        StatusOr.ok (c1, SerializeResponseTo c1) ∧
      SerializeResponseTo c1 = serializeMessage { bytes := [4, 2] } :: testCall.sidecars_ ∧
      c1.responded = true ∧
      (∃ c2, RespondSuccess { testCall with client_deadline := MonoTime.max }
          { bytes := [4, 2] } = StatusOr.ok (c2, SerializeResponseTo c2) ∧
        SerializeResponseTo c2 = SerializeResponseTo c1) :=
  timed_out_respond_still_queued testCall 150 { bytes := [4, 2] } rfl (by decide)

/-- Witness for C8: recording at instants 10 ≤ 25 ≤ 40 stamps exactly
those values in order, and every out-of-order or repeated recording
fails. -/
theorem timing_monotonic_once_witness :
    ∃ c1 c2 c3 dq dr,
      RecordCallReceived testCall 10 = some c1 ∧
      RecordHandlingStarted c1 25 = some (c2, dq) ∧
      RecordHandlingCompleted c2 40 = some (c3, dr) ∧
      c3.timing_.time_received = some 10 ∧
      c3.timing_.time_handled = some 25 ∧
      c3.timing_.time_completed = some 40 ∧
      (∀ a b, c3.timing_.time_received = some a →
        c3.timing_.time_handled = some b → a ≤ b) ∧
      (∀ a b, c3.timing_.time_handled = some a →
        c3.timing_.time_completed = some b → a ≤ b) ∧
      RecordCallReceived c1 25 = none ∧
      RecordCallReceived c2 40 = none ∧
      RecordCallReceived c3 40 = none ∧
      RecordHandlingStarted testCall 10 = none ∧
      RecordHandlingStarted c2 40 = none ∧
      RecordHandlingStarted c3 40 = none ∧
      RecordHandlingCompleted testCall 10 = none ∧
      RecordHandlingCompleted c1 25 = none ∧
      RecordHandlingCompleted c3 40 = none :=
  timing_monotonic_once testCall 10 25 40 rfl rfl (by decide) (by decide)

/-- Witness for C9: the scenario envelope for id 42, message
"bad input" and payload `[3, 1, 4]`, queued as the primary payload. -/
theorem application_error_envelope_witness :
    ∃ c1, RespondApplicationError testCall 42 "bad input" { bytes := [3, 1, 4] } =
        StatusOr.ok (c1,
          serializeError (ApplicationErrorToPB 42 "bad input" { bytes := [3, 1, 4] }) ::
            testCall.sidecars_) ∧
      c1.response_buf_ =
        serializeError (ApplicationErrorToPB 42 "bad input" { bytes := [3, 1, 4] }) :=
  application_error_envelope.2.1 testCall 42 "bad input" { bytes := [3, 1, 4] } rfl

end YbRpc
